import Mathlib

set_option maxRecDepth 100000

/-!
Verification of the greenfloor native core against its specification.

The repository's own code is `src/greenfloor-native/src/lib.rs`: the two
entry points `validate_offer` and `from_input_spend_bundle_xch`, the
identifier parser `parse_bytes32`, and the error conversion to a Python
value error.  The binary codec, the offer reconstruction and the
settlement-spend construction live in external ledger-SDK crates that are
not part of this repository; those parts are modelled from the
specification (each such definition carries a doc comment starting with
`Modelled from the spec:`).  Machine integers are modelled as `Nat` and
byte buffers as `List Nat`.
-/

/-- The error taxonomy of the specification (section 7).  The source converts
every failure into a single Python value error carrying a message; the
taxonomy constructor records which class of failure produced it. -/
inductive NativeError where
  | encodingError (msg : String)
  | lengthError (field : String)
  | structuralError (msg : String)
  | cryptoVerificationError (msg : String)
deriving Repr, DecidableEq

instance {ε α : Type} [DecidableEq ε] [DecidableEq α] :
    DecidableEq (Except ε α) := fun x y =>
  match x, y with
  | Except.ok a, Except.ok b =>
      if h : a = b then isTrue (by rw [h]) else isFalse (by simp [h])
  | Except.error a, Except.error b =>
      if h : a = b then isTrue (by rw [h]) else isFalse (by simp [h])
  | Except.ok _, Except.error _ => isFalse (by simp)
  | Except.error _, Except.ok _ => isFalse (by simp)

/-- A 32-byte identifier (`Bytes32` in the source): coin ids, puzzle hashes,
asset ids and payment nonces. -/
abbrev Bytes32 := { l : List Nat // l.length = 32 }

/-- Aggregated signatures, modelled as the free monoid of atomic signature
components: aggregation is concatenation and the identity element is the
empty list.  This captures the monoid structure of BLS aggregation that the
claims rely on without modelling the curve arithmetic. -/
abbrev Signature := List (List Nat)

/-- Modelled from the spec: the identity (empty) aggregated signature. -/
def identity_signature : Signature := []

/-- Modelled from the spec: signature aggregation over the union of two
bundles' spends. -/
def aggregate_signatures (a b : Signature) : Signature := a ++ b

/-- Payment memos: either absent (`Memos::None` in the source) or a byte
buffer. -/
inductive Memos where
  | none
  | some (value : List Nat)
deriving Repr, DecidableEq

/-- A payment: recipient puzzle hash, amount, optional memo
(`chia_puzzle_types::offer::Payment`). -/
structure Payment where
  puzzle_hash : Bytes32
  amount : Nat
  memos : Memos
deriving DecidableEq

/-- A notarized payment: a nonce together with an ordered sequence of
payments (`chia_puzzle_types::offer::NotarizedPayment`). -/
structure NotarizedPayment where
  nonce : Bytes32
  payments : List Payment
deriving DecidableEq

/-- Requested payments by asset class: the native-asset (`xch`) slot and the
token-class slots keyed by asset id (`chia_sdk_driver::RequestedPayments`). -/
structure RequestedPayments where
  xch : List NotarizedPayment
  cats : List (Bytes32 × List NotarizedPayment)
deriving DecidableEq

/-- `RequestedPayments::new()`: both slots empty. -/
def RequestedPayments.new : RequestedPayments := ⟨[], []⟩

/-- A coin: parent coin id, puzzle hash, amount. -/
structure Coin where
  parent_coin_info : Bytes32
  puzzle_hash : Bytes32
  amount : Nat
deriving DecidableEq

/-- A coin spend: a coin, its puzzle reveal and its solution, the two
programs modelled as their serialized bytes. -/
structure CoinSpend where
  coin : Coin
  puzzle_reveal : List Nat
  solution : List Nat
deriving DecidableEq

/-- A spend bundle: an ordered sequence of coin spends plus one aggregated
signature. -/
structure SpendBundle where
  coin_spends : List CoinSpend
  aggregated_signature : Signature
deriving DecidableEq

/-! ## Binary codec

Modelled from the spec (section 4.1): a deterministic encoder/decoder pair
between byte buffers and the object representations, with the round-trip
law as its contract.  Decoders consume a value off the front of the buffer
and return it with the unconsumed tail. -/

/-- Modelled from the spec: big-endian 4-byte encoding of an unsigned
32-bit integer (used for length prefixes). -/
def encode_u32 (n : Nat) : List Nat :=
  [n / 16777216 % 256, n / 65536 % 256, n / 256 % 256, n % 256]

/-- Decode a big-endian unsigned 32-bit integer off the front of a buffer. -/
def decode_u32 : List Nat → Option (Nat × List Nat)
  | b0 :: b1 :: b2 :: b3 :: rest =>
      some (b0 * 16777216 + b1 * 65536 + b2 * 256 + b3, rest)
  | _ => none

/-- Modelled from the spec: big-endian 8-byte encoding of an unsigned
64-bit integer (payment and coin amounts). -/
def encode_u64 (n : Nat) : List Nat :=
  [n / 72057594037927936 % 256, n / 281474976710656 % 256,
   n / 1099511627776 % 256, n / 4294967296 % 256,
   n / 16777216 % 256, n / 65536 % 256, n / 256 % 256, n % 256]

/-- Decode a big-endian unsigned 64-bit integer off the front of a buffer. -/
def decode_u64 : List Nat → Option (Nat × List Nat)
  | b0 :: b1 :: b2 :: b3 :: b4 :: b5 :: b6 :: b7 :: rest =>
      some (b0 * 72057594037927936 + b1 * 281474976710656 +
            b2 * 1099511627776 + b3 * 4294967296 +
            b4 * 16777216 + b5 * 65536 + b6 * 256 + b7, rest)
  | _ => none

/-- Consume exactly `k` bytes off the front of a buffer. -/
def decode_fixed (k : Nat) (bs : List Nat) : Option (List Nat × List Nat) :=
  if k ≤ bs.length then some (bs.take k, bs.drop k) else none

/-- Modelled from the spec: a variable-length byte buffer is encoded as a
32-bit length prefix followed by the raw bytes. -/
def encode_bytes (b : List Nat) : List Nat :=
  encode_u32 b.length ++ b

/-- Decode a length-prefixed byte buffer. -/
def decode_bytes (bs : List Nat) : Option (List Nat × List Nat) := do
  let (len, r) ← decode_u32 bs
  decode_fixed len r

/-- A 32-byte identifier is encoded as its raw bytes, no prefix. -/
def encode_bytes32 (b : Bytes32) : List Nat := b.val

/-- Decode a 32-byte identifier off the front of a buffer. -/
def decode_bytes32 (bs : List Nat) : Option (Bytes32 × List Nat) :=
  match decode_fixed 32 bs with
  | some (l, r) =>
      if h : l.length = 32 then some (⟨l, h⟩, r) else none
  | none => none

/-- Decode exactly `k` consecutive values with the element decoder `dec`. -/
def decode_count (dec : List Nat → Option (α × List Nat)) :
    Nat → List Nat → Option (List α × List Nat)
  | 0, bs => some ([], bs)
  | k + 1, bs => do
      let (a, r) ← dec bs
      let (as, r2) ← decode_count dec k r
      some (a :: as, r2)

/-- Modelled from the spec: a sequence is encoded as a 32-bit count followed
by the concatenated element encodings. -/
def encode_list (enc : α → List Nat) (xs : List α) : List Nat :=
  encode_u32 xs.length ++ (xs.map enc).flatten

/-- Decode a count-prefixed sequence with the element decoder `dec`. -/
def decode_list (dec : List Nat → Option (α × List Nat)) (bs : List Nat) :
    Option (List α × List Nat) := do
  let (len, r) ← decode_u32 bs
  decode_count dec len r

/-- Encode a coin: parent id, puzzle hash, amount. -/
def encode_coin (c : Coin) : List Nat :=
  encode_bytes32 c.parent_coin_info ++ encode_bytes32 c.puzzle_hash ++
    encode_u64 c.amount

/-- Decode a coin. -/
def decode_coin (bs : List Nat) : Option (Coin × List Nat) := do
  let (p, r1) ← decode_bytes32 bs
  let (ph, r2) ← decode_bytes32 r1
  let (a, r3) ← decode_u64 r2
  some (⟨p, ph, a⟩, r3)

/-- Encode a coin spend: coin, puzzle reveal, solution. -/
def encode_coin_spend (cs : CoinSpend) : List Nat :=
  encode_coin cs.coin ++ encode_bytes cs.puzzle_reveal ++
    encode_bytes cs.solution

/-- Decode a coin spend. -/
def decode_coin_spend (bs : List Nat) : Option (CoinSpend × List Nat) := do
  let (c, r1) ← decode_coin bs
  let (pr, r2) ← decode_bytes r1
  let (sol, r3) ← decode_bytes r2
  some (⟨c, pr, sol⟩, r3)

/-- Encode an aggregated signature as the sequence of its components. -/
def encode_signature (s : Signature) : List Nat :=
  encode_list encode_bytes s

/-- Decode an aggregated signature. -/
def decode_signature (bs : List Nat) : Option (Signature × List Nat) :=
  decode_list decode_bytes bs

/-- Encode a spend bundle: the coin-spend sequence then the signature. -/
def SpendBundle.to_bytes (sb : SpendBundle) : List Nat :=
  encode_list encode_coin_spend sb.coin_spends ++
    encode_signature sb.aggregated_signature

/-- Decode a spend bundle off the front of a buffer. -/
def decode_spend_bundle (bs : List Nat) : Option (SpendBundle × List Nat) := do
  let (spends, r1) ← decode_list decode_coin_spend bs
  let (sig, r2) ← decode_signature r1
  some (⟨spends, sig⟩, r2)

/-- `SpendBundle::from_bytes`: full decoding of a buffer into a spend bundle,
failing with an encoding error when decoding fails or bytes remain. -/
def SpendBundle.from_bytes (bs : List Nat) : Except NativeError SpendBundle :=
  match decode_spend_bundle bs with
  | some (sb, []) => Except.ok sb
  | some (_, _ :: _) => Except.error (NativeError.encodingError "trailing bytes after spend bundle")
  | none => Except.error (NativeError.encodingError "failed to decode spend bundle")

/-- Well-formedness of a spend bundle for the codec: every machine integer
fits its width (amounts in 64 bits, sequence and buffer lengths in the
32-bit length prefixes). -/
def SpendBundle.WellFormed (sb : SpendBundle) : Prop :=
  sb.coin_spends.length < 4294967296 ∧
  (∀ cs ∈ sb.coin_spends,
      cs.coin.amount < 18446744073709551616 ∧
      cs.puzzle_reveal.length < 4294967296 ∧
      cs.solution.length < 4294967296) ∧
  sb.aggregated_signature.length < 4294967296 ∧
  (∀ c ∈ sb.aggregated_signature, c.length < 4294967296)

instance (sb : SpendBundle) : Decidable sb.WellFormed := by
  unfold SpendBundle.WellFormed
  infer_instance

/-! ## Payments codec (settlement solutions) -/

/-- Encode a memo field: a tag byte then, when present, the buffer. -/
def encode_memos : Memos → List Nat
  | Memos.none => [0]
  | Memos.some v => 1 :: encode_bytes v

/-- Decode a memo field. -/
def decode_memos : List Nat → Option (Memos × List Nat)
  | 0 :: rest => some (Memos.none, rest)
  | 1 :: rest => do
      let (v, r) ← decode_bytes rest
      some (Memos.some v, r)
  | _ => none

/-- Encode a payment: puzzle hash, amount, memo. -/
def encode_payment (p : Payment) : List Nat :=
  encode_bytes32 p.puzzle_hash ++ encode_u64 p.amount ++ encode_memos p.memos

/-- Decode a payment. -/
def decode_payment (bs : List Nat) : Option (Payment × List Nat) := do
  let (ph, r1) ← decode_bytes32 bs
  let (a, r2) ← decode_u64 r1
  let (m, r3) ← decode_memos r2
  some (⟨ph, a, m⟩, r3)

/-- Encode a notarized payment: nonce then the payment sequence. -/
def encode_notarized_payment (np : NotarizedPayment) : List Nat :=
  encode_bytes32 np.nonce ++ encode_list encode_payment np.payments

/-- Decode a notarized payment. -/
def decode_notarized_payment (bs : List Nat) :
    Option (NotarizedPayment × List Nat) := do
  let (nonce, r1) ← decode_bytes32 bs
  let (ps, r2) ← decode_list decode_payment r1
  some (⟨nonce, ps⟩, r2)

/-! ## Offer parser / validator

The source's `validate_offer` decodes the offer string and hands the bundle
to `chia_sdk_driver::Offer::from_spend_bundle`.  The offer string wrapper
and the reconstruction performed by the SDK are not in this repository;
they are modelled from the spec (section 4.2). -/

/-- The all-zero identifier. -/
def zero_bytes32 : Bytes32 := ⟨List.replicate 32 0, by simp⟩

/-- Modelled from the spec: the settlement-payment puzzle, a fixed program
whose presence as a coin spend's puzzle reveal is the structural marker of
a native-asset settlement construct. -/
def settlement_payment_puzzle : List Nat := [2, 1, 1]

/-- Modelled from the spec: the puzzle hash of a program.  Stands in for the
tree hash of the ledger SDK; any fixed function of the program bytes
supports the claims, which concern when the hash check runs, not its
value. -/
def puzzle_hash_of (program : List Nat) : Bytes32 :=
  ⟨(List.range 32).map
      (fun i => (program.foldl (fun a b => (a * 31 + b + 7) % 256) i) % 256),
   by simp⟩

/-- Modelled from the spec: the aggregated signature required for the
message derived from all coin spends — one component per spend, derived
from that spend's encoding.  When there are no spends the required
signature is the identity. -/
def required_signature (spends : List CoinSpend) : Signature :=
  spends.map encode_coin_spend

/-- Check 1 of the validator: every coin spend's puzzle reveal hashes to
that spend's declared puzzle hash. -/
def puzzle_hashes_ok (sb : SpendBundle) : Prop :=
  ∀ cs ∈ sb.coin_spends, puzzle_hash_of cs.puzzle_reveal = cs.coin.puzzle_hash

instance (sb : SpendBundle) : Decidable (puzzle_hashes_ok sb) := by
  unfold puzzle_hashes_ok
  infer_instance

/-- Check 2 of the validator: the aggregated signature is valid for the
message derived from all coin spends. -/
def signature_ok (sb : SpendBundle) : Prop :=
  sb.aggregated_signature = required_signature sb.coin_spends

instance (sb : SpendBundle) : Decidable (signature_ok sb) := by
  unfold signature_ok
  infer_instance

/-- Does a settlement solution parse without ambiguity into notarized
payments, consuming the whole buffer? -/
def settlement_solution_parses (bs : List Nat) : Bool :=
  match decode_list decode_notarized_payment bs with
  | some (_, []) => true
  | _ => false

/-- Check 3 of the validator: the reconstructed settlement structure is
internally consistent — every spend of the settlement puzzle announces
notarized payments that parse without ambiguity. -/
def settlement_ok (sb : SpendBundle) : Prop :=
  ∀ cs ∈ sb.coin_spends, cs.puzzle_reveal = settlement_payment_puzzle →
    settlement_solution_parses cs.solution = true

instance (sb : SpendBundle) : Decidable (settlement_ok sb) := by
  unfold settlement_ok
  infer_instance

/-- Modelled from the spec: `Offer::from_spend_bundle` — reconstruct the
offer view and validate, fail-fast in the spec's order: puzzle-reveal
hashes, aggregated signature, settlement consistency. -/
def Offer.from_spend_bundle (sb : SpendBundle) : Except NativeError Unit :=
  if puzzle_hashes_ok sb then
    if signature_ok sb then
      if settlement_ok sb then Except.ok ()
      else Except.error (NativeError.structuralError "inconsistent settlement structure")
    else Except.error (NativeError.cryptoVerificationError "invalid aggregated signature")
  else Except.error (NativeError.structuralError "puzzle reveal does not match puzzle hash")

/-- Modelled from the spec: `decode_offer` — the offer string is a
conventional wrapper around an encoded spend bundle, modelled as the
encoded bytes themselves; it fails with an encoding error when canonical
decoding fails. -/
def decode_offer (offer : List Nat) : Except NativeError SpendBundle :=
  SpendBundle.from_bytes offer

/-- `validate_offer` from the source: decode the offer, then reconstruct
and validate the offer view. -/
def validate_offer (offer : List Nat) : Except NativeError Unit := do
  let spend_bundle ← decode_offer offer
  Offer.from_spend_bundle spend_bundle

/-! ## Spend-bundle assembler -/

/-- `parse_bytes32` from the source: a buffer becomes an identifier exactly
when it has length 32; otherwise a length error naming the field. -/
def parse_bytes32 (raw : List Nat) (field : String) :
    Except NativeError Bytes32 :=
  if h : raw.length = 32 then Except.ok ⟨raw, h⟩
  else Except.error (NativeError.lengthError field)

/-- The inner loop of `from_input_spend_bundle_xch`: each `(puzzle_hash,
amount)` entry becomes a `Payment` with no memo, the puzzle hash parsed
first, fail-fast in caller order. -/
def build_payments : List (List Nat × Nat) → Except NativeError (List Payment)
  | [] => Except.ok []
  | (puzzle_hash_raw, amount) :: rest => do
      let puzzle_hash ← parse_bytes32 puzzle_hash_raw "puzzle_hash"
      let payments ← build_payments rest
      Except.ok (Payment.mk puzzle_hash amount Memos.none :: payments)

/-- The outer loop of `from_input_spend_bundle_xch`: each `(nonce,
payments)` entry becomes a `NotarizedPayment`, the nonce parsed before the
entry's puzzle hashes, fail-fast in caller order. -/
def build_xch : List (List Nat × List (List Nat × Nat)) →
    Except NativeError (List NotarizedPayment)
  | [] => Except.ok []
  | (nonce_raw, payments_raw) :: rest => do
      let nonce ← parse_bytes32 nonce_raw "nonce"
      let payments ← build_payments payments_raw
      let tail ← build_xch rest
      Except.ok (NotarizedPayment.mk nonce payments :: tail)

/-- The requested-payments construction of `from_input_spend_bundle_xch`:
starting from `RequestedPayments::new()`, push every notarized payment
into the native-asset slot; token-class slots are never touched. -/
def build_requested_payments
    (requested_payments_xch : List (List Nat × List (List Nat × Nat))) :
    Except NativeError RequestedPayments := do
  let xch ← build_xch requested_payments_xch
  Except.ok { RequestedPayments.new with xch := xch }

/-- Modelled from the spec: the settlement coin spend paying out the
native-asset notarized payments — a spend of the settlement puzzle whose
solution encodes the announced payments.  An empty slot produces no
spend. -/
def xch_settlement_spends (nps : List NotarizedPayment) : List CoinSpend :=
  match nps with
  | [] => []
  | _ =>
      [⟨⟨zero_bytes32, puzzle_hash_of settlement_payment_puzzle, 0⟩,
        settlement_payment_puzzle,
        encode_list encode_notarized_payment nps⟩]

/-- Modelled from the spec: the settlement coin spend for one token class,
a spend of the token-wrapped settlement puzzle for that asset id. -/
def cat_settlement_spend (entry : Bytes32 × List NotarizedPayment) : CoinSpend :=
  ⟨⟨zero_bytes32, puzzle_hash_of (3 :: entry.1.val), 0⟩,
   3 :: entry.1.val,
   encode_list encode_notarized_payment entry.2⟩

/-- Modelled from the spec: all settlement coin spends for a requested
payments structure — the native-asset spend, then one per token class. -/
def settlement_spends (rp : RequestedPayments) : List CoinSpend :=
  xch_settlement_spends rp.xch ++ rp.cats.map cat_settlement_spend

/-- Modelled from the spec: `Offer::from_input_spend_bundle` followed by
`Offer::to_spend_bundle` — merge the newly built settlement spends after
the input bundle's coin spends (order-preserving concatenation) and
aggregate the input signature with the settlement spends' contribution,
which is the identity since settlement spends carry no signature. -/
def offer_to_spend_bundle (input : SpendBundle) (rp : RequestedPayments) :
    SpendBundle :=
  ⟨input.coin_spends ++ settlement_spends rp,
   aggregate_signatures input.aggregated_signature identity_signature⟩

/-- `from_input_spend_bundle_xch` from the source: decode the input bundle
bytes, build the requested payments, construct and merge the settlement
spends, and encode the merged bundle. -/
def from_input_spend_bundle_xch (spend_bundle_bytes : List Nat)
    (requested_payments_xch : List (List Nat × List (List Nat × Nat))) :
    Except NativeError (List Nat) := do
  let spend_bundle ← SpendBundle.from_bytes spend_bundle_bytes
  let requested_payments ← build_requested_payments requested_payments_xch
  let offer_spend_bundle := offer_to_spend_bundle spend_bundle requested_payments
  Except.ok offer_spend_bundle.to_bytes

/-- The field name of the first identifier of bad length in caller scan
order: for each entry its nonce first, then its puzzle hashes in order,
then the following entries.  Describes the error-reporting order the
claims state; the theorems relate it to the construction above. -/
def first_bad_payment_field : List (List Nat × Nat) → Option String
  | [] => Option.none
  | (puzzle_hash_raw, _) :: rest =>
      if puzzle_hash_raw.length = 32 then first_bad_payment_field rest
      else Option.some "puzzle_hash"

/-- The field name of the first bad-length identifier over the whole
requested-payments sequence, in caller order. -/
def first_bad_field : List (List Nat × List (List Nat × Nat)) → Option String
  | [] => Option.none
  | (nonce_raw, payments_raw) :: rest =>
      if nonce_raw.length = 32 then
        match first_bad_payment_field payments_raw with
        | Option.some f => Option.some f
        | Option.none => first_bad_field rest
      else Option.some "nonce"

/-- One raw payment entry matches a constructed `Payment` when the puzzle
hash, the amount and the absent memo coincide. -/
def payment_matches (p : List Nat × Nat) (pay : Payment) : Prop :=
  pay.puzzle_hash.val = p.1 ∧ pay.amount = p.2 ∧ pay.memos = Memos.none

/-- One raw requested-payments entry matches a constructed
`NotarizedPayment` when the nonce coincides and the payments match
pointwise in order. -/
def entry_matches (e : List Nat × List (List Nat × Nat))
    (np : NotarizedPayment) : Prop :=
  np.nonce.val = e.1 ∧ List.Forall₂ payment_matches e.2 np.payments

/-- A sample identifier: thirty-two bytes of value 17. -/
def ones_bytes32 : Bytes32 := ⟨List.replicate 32 17, by simp⟩

/-- A sample identifier: thirty-two bytes of value 34. -/
def twos_bytes32 : Bytes32 := ⟨List.replicate 32 34, by simp⟩

/-- A sample coin spend whose puzzle reveal hashes to its declared puzzle
hash. -/
def sample_spend : CoinSpend :=
  ⟨⟨zero_bytes32, puzzle_hash_of [1], 1000⟩, [1], [0]⟩

/-- A sample well-formed spend bundle carrying the signature required for
its single spend. -/
def sample_bundle : SpendBundle :=
  ⟨[sample_spend], required_signature [sample_spend]⟩

/-- The empty spend bundle: no coin spends, identity signature. -/
def empty_bundle : SpendBundle := ⟨[], identity_signature⟩

/-- A sample requested-payments argument: one entry, nonce of 17-bytes,
one payment of 500 units to the 34-bytes puzzle hash. -/
def sample_rp_xch : List (List Nat × List (List Nat × Nat)) :=
  [(List.replicate 32 17, [(List.replicate 32 34, 500)])]

/-- The requested payments built from `sample_rp_xch`. -/
def sample_rp : RequestedPayments :=
  ⟨[⟨ones_bytes32, [⟨twos_bytes32, 500, Memos.none⟩]⟩], []⟩

/-- A requested-payments argument with two entries carrying the same
nonce. -/
def dup_rp_xch : List (List Nat × List (List Nat × Nat)) :=
  [(List.replicate 32 17, []), (List.replicate 32 17, [])]

/-- The notarized payments built from `dup_rp_xch`: two separate entries
with the same nonce. -/
def dup_rp : RequestedPayments :=
  ⟨[⟨ones_bytes32, []⟩, ⟨ones_bytes32, []⟩], []⟩

/-! ## Codec round-trip lemmas -/

/-- Decoding an encoded 32-bit integer returns the value and the tail. -/
theorem decode_u32_encode (n : Nat) (h : n < 4294967296) (rest : List Nat) :
    decode_u32 (encode_u32 n ++ rest) = some (n, rest) := by
  simp only [encode_u32, decode_u32, List.cons_append, List.nil_append,
    Option.some.injEq, Prod.mk.injEq, and_true]
  omega

/-- Decoding an encoded 64-bit integer returns the value and the tail. -/
theorem decode_u64_encode (n : Nat) (h : n < 18446744073709551616)
    (rest : List Nat) :
    decode_u64 (encode_u64 n ++ rest) = some (n, rest) := by
  simp only [encode_u64, decode_u64, List.cons_append, List.nil_append,
    Option.some.injEq, Prod.mk.injEq, and_true]
  omega

/-- Consuming a fixed count of bytes off a buffer that starts with exactly
that many returns them and the tail. -/
theorem decode_fixed_append (k : Nat) (l rest : List Nat)
    (h : l.length = k) :
    decode_fixed k (l ++ rest) = some (l, rest) := by
  subst h
  simp [decode_fixed, List.take_left, List.drop_left]

/-- Decoding an encoded identifier returns it and the tail. -/
theorem decode_bytes32_encode (b : Bytes32) (rest : List Nat) :
    decode_bytes32 (encode_bytes32 b ++ rest) = some (b, rest) := by
  unfold decode_bytes32 encode_bytes32
  rw [decode_fixed_append 32 b.val rest b.property]
  simp [b.property]

/-- Decoding an encoded length-prefixed buffer returns it and the tail. -/
theorem decode_bytes_encode (b : List Nat) (h : b.length < 4294967296)
    (rest : List Nat) :
    decode_bytes (encode_bytes b ++ rest) = some (b, rest) := by
  simp [decode_bytes, encode_bytes, List.append_assoc,
    decode_u32_encode _ h, decode_fixed_append b.length b rest rfl]

/-- Decoding a count of encoded values returns them and the tail, given
that every element round-trips. -/
theorem decode_count_encode (dec : List Nat → Option (α × List Nat))
    (enc : α → List Nat) (xs : List α)
    (h : ∀ x ∈ xs, ∀ rest, dec (enc x ++ rest) = some (x, rest))
    (rest : List Nat) :
    decode_count dec xs.length ((xs.map enc).flatten ++ rest) =
      some (xs, rest) := by
  induction xs with
  | nil => simp [decode_count]
  | cons x xs ih =>
      simp only [List.map_cons, List.flatten_cons, List.length_cons,
        List.append_assoc]
      rw [decode_count, h x (by simp) ((xs.map enc).flatten ++ rest)]
      simp [ih (fun y hy r => h y (by simp [hy]) r)]

/-- Decoding an encoded sequence returns it and the tail. -/
theorem decode_list_encode (dec : List Nat → Option (α × List Nat))
    (enc : α → List Nat) (xs : List α) (hlen : xs.length < 4294967296)
    (h : ∀ x ∈ xs, ∀ rest, dec (enc x ++ rest) = some (x, rest))
    (rest : List Nat) :
    decode_list dec (encode_list enc xs ++ rest) = some (xs, rest) := by
  simp [decode_list, encode_list, List.append_assoc,
    decode_u32_encode _ hlen, decode_count_encode dec enc xs h rest]

/-- Decoding an encoded coin returns it and the tail. -/
theorem decode_coin_encode (c : Coin)
    (h : c.amount < 18446744073709551616) (rest : List Nat) :
    decode_coin (encode_coin c ++ rest) = some (c, rest) := by
  simp [decode_coin, encode_coin, List.append_assoc,
    decode_bytes32_encode, decode_u64_encode _ h]

/-- Decoding an encoded coin spend returns it and the tail. -/
theorem decode_coin_spend_encode (cs : CoinSpend)
    (h1 : cs.coin.amount < 18446744073709551616)
    (h2 : cs.puzzle_reveal.length < 4294967296)
    (h3 : cs.solution.length < 4294967296) (rest : List Nat) :
    decode_coin_spend (encode_coin_spend cs ++ rest) = some (cs, rest) := by
  simp [decode_coin_spend, encode_coin_spend, List.append_assoc,
    decode_coin_encode _ h1, decode_bytes_encode _ h2,
    decode_bytes_encode _ h3]

/-- Decoding an encoded signature returns it and the tail. -/
theorem decode_signature_encode (s : Signature)
    (hlen : s.length < 4294967296)
    (h : ∀ c ∈ s, c.length < 4294967296) (rest : List Nat) :
    decode_signature (encode_signature s ++ rest) = some (s, rest) := by
  unfold decode_signature encode_signature
  exact decode_list_encode decode_bytes encode_bytes s hlen
    (fun c hc r => decode_bytes_encode c (h c hc) r) rest

/-- Decoding an encoded well-formed spend bundle returns it and the tail. -/
theorem decode_spend_bundle_encode (sb : SpendBundle)
    (h : sb.WellFormed) (rest : List Nat) :
    decode_spend_bundle (SpendBundle.to_bytes sb ++ rest) =
      some (sb, rest) := by
  obtain ⟨hlen, hspends, hsiglen, hsig⟩ := h
  simp [decode_spend_bundle, SpendBundle.to_bytes, List.append_assoc,
    decode_list_encode decode_coin_spend encode_coin_spend sb.coin_spends
      hlen
      (fun cs hcs r =>
        decode_coin_spend_encode cs (hspends cs hcs).1 (hspends cs hcs).2.1
          (hspends cs hcs).2.2 r),
    decode_signature_encode sb.aggregated_signature hsiglen hsig]

/-! ## Assembler helper lemmas -/

/-- An `Except` value is an `ok` or an `error`. -/
theorem except_ok_or_error (x : Except ε α) :
    (∃ v, x = Except.ok v) ∨ (∃ e, x = Except.error e) := by
  cases x with
  | ok v => exact Or.inl ⟨v, rfl⟩
  | error e => exact Or.inr ⟨e, rfl⟩

/-- Reduce a monadic bind on an `ok` value. -/
theorem except_ok_bind (a : α) (f : α → Except ε β) :
    (do let x ← (Except.ok a : Except ε α); f x) = f a := rfl

/-- Reduce a monadic bind on an `error` value. -/
theorem except_error_bind (e : ε) (f : α → Except ε β) :
    (do let x ← (Except.error e : Except ε α); f x) = Except.error e := rfl

/-- `build_payments` fails exactly at the first puzzle hash of bad length,
in caller order, with a length error naming the field. -/
theorem build_payments_error_iff (l : List (List Nat × Nat))
    (e : NativeError) :
    build_payments l = Except.error e ↔
      ∃ f, first_bad_payment_field l = Option.some f ∧
        e = NativeError.lengthError f := by
  induction l with
  | nil => simp [build_payments, first_bad_payment_field]
  | cons p rest ih =>
      obtain ⟨ph_raw, amount⟩ := p
      by_cases h : ph_raw.length = 32
      · simp only [build_payments, first_bad_payment_field, h, if_pos,
          parse_bytes32, dif_pos, except_ok_bind]
        rcases except_ok_or_error (build_payments rest) with ⟨v, hv⟩ | ⟨e2, he2⟩
        · rw [hv, except_ok_bind, ← ih]
          simp [hv]
        · rw [he2, except_error_bind, ← ih]
          simp [he2]
      · simp only [build_payments, first_bad_payment_field, h, if_neg,
          parse_bytes32, dif_neg, except_error_bind, not_false_iff]
        constructor
        · intro he
          exact ⟨"puzzle_hash", rfl, (Except.error.injEq _ _).mp he.symm⟩
        · rintro ⟨f, hf, he⟩
          rw [he, (Option.some.injEq _ _).mp hf]

/-- `build_xch` fails exactly at the first bad-length identifier in caller
order — each entry's nonce before that entry's puzzle hashes — with a
length error naming the field. -/
theorem build_xch_error_iff (l : List (List Nat × List (List Nat × Nat)))
    (e : NativeError) :
    build_xch l = Except.error e ↔
      ∃ f, first_bad_field l = Option.some f ∧
        e = NativeError.lengthError f := by
  induction l with
  | nil => simp [build_xch, first_bad_field]
  | cons p rest ih =>
      obtain ⟨nonce_raw, payments_raw⟩ := p
      by_cases h : nonce_raw.length = 32
      · simp only [build_xch, first_bad_field, h, if_pos, parse_bytes32,
          dif_pos, except_ok_bind]
        rcases except_ok_or_error (build_payments payments_raw) with
          ⟨ps, hps⟩ | ⟨e2, he2⟩
        · have hbad : first_bad_payment_field payments_raw = Option.none := by
            rcases hfb : first_bad_payment_field payments_raw with _ | f
            · rfl
            · exact absurd hps (by
                rw [(build_payments_error_iff payments_raw
                      (NativeError.lengthError f)).mpr ⟨f, hfb, rfl⟩]
                simp)
          rw [hps, except_ok_bind, hbad]
          rcases except_ok_or_error (build_xch rest) with ⟨v, hv⟩ | ⟨e3, he3⟩
          · rw [hv, except_ok_bind, ← ih]
            simp [hv]
          · rw [he3, except_error_bind, ← ih]
            simp [he3]
        · have hbad := (build_payments_error_iff payments_raw e2).mp he2
          obtain ⟨f, hf, he2f⟩ := hbad
          rw [he2, except_error_bind, hf]
          constructor
          · intro hee
            exact ⟨f, rfl, by
              rw [← he2f, (Except.error.injEq _ _).mp hee.symm]⟩
          · rintro ⟨f2, hf2, hef2⟩
            rw [hef2, ← (Option.some.injEq _ _).mp hf2, ← he2f]
      · simp only [build_xch, first_bad_field, h, if_neg, parse_bytes32,
          dif_neg, except_error_bind, not_false_iff]
        constructor
        · intro he
          exact ⟨"nonce", rfl, (Except.error.injEq _ _).mp he.symm⟩
        · rintro ⟨f, hf, he⟩
          rw [he, (Option.some.injEq _ _).mp hf]

/-- `build_payments` succeeds and produces the payments matching the raw
entries pointwise, for well-lengthed puzzle hashes. -/
theorem build_payments_matches (l : List (List Nat × Nat))
    (ps : List Payment) (h : build_payments l = Except.ok ps) :
    List.Forall₂ payment_matches l ps := by
  induction l generalizing ps with
  | nil =>
      simp only [build_payments, Except.ok.injEq] at h
      rw [← h]
      exact List.Forall₂.nil
  | cons p rest ih =>
      obtain ⟨ph_raw, amount⟩ := p
      by_cases hl : ph_raw.length = 32
      · simp only [build_payments, parse_bytes32, hl, dif_pos,
          except_ok_bind] at h
        rcases except_ok_or_error (build_payments rest) with
          ⟨v, hv⟩ | ⟨e2, he2⟩
        · rw [hv, except_ok_bind] at h
          simp only [Except.ok.injEq] at h
          rw [← h]
          exact List.Forall₂.cons ⟨rfl, rfl, rfl⟩ (ih v hv)
        · rw [he2, except_error_bind] at h
          exact absurd h (by simp)
      · simp only [build_payments, parse_bytes32, hl, dif_neg,
          not_false_iff, except_error_bind] at h
        exact absurd h (by simp)

/-- `build_xch` succeeds and produces the notarized payments matching the
raw entries pointwise, in caller order. -/
theorem build_xch_matches (l : List (List Nat × List (List Nat × Nat)))
    (xch : List NotarizedPayment) (h : build_xch l = Except.ok xch) :
    List.Forall₂ entry_matches l xch := by
  induction l generalizing xch with
  | nil =>
      simp only [build_xch, Except.ok.injEq] at h
      rw [← h]
      exact List.Forall₂.nil
  | cons p rest ih =>
      obtain ⟨nonce_raw, payments_raw⟩ := p
      by_cases hl : nonce_raw.length = 32
      · simp only [build_xch, parse_bytes32, hl, dif_pos,
          except_ok_bind] at h
        rcases except_ok_or_error (build_payments payments_raw) with
          ⟨ps, hps⟩ | ⟨e2, he2⟩
        · rw [hps, except_ok_bind] at h
          rcases except_ok_or_error (build_xch rest) with
            ⟨v, hv⟩ | ⟨e3, he3⟩
          · rw [hv, except_ok_bind] at h
            simp only [Except.ok.injEq] at h
            rw [← h]
            exact List.Forall₂.cons
              ⟨rfl, build_payments_matches payments_raw ps hps⟩ (ih v hv)
          · rw [he3, except_error_bind] at h
            exact absurd h (by simp)
        · rw [he2, except_error_bind] at h
          exact absurd h (by simp)
      · simp only [build_xch, parse_bytes32, hl, dif_neg,
          not_false_iff, except_error_bind] at h
        exact absurd h (by simp)

/-- A successful requested-payments construction: the native-asset slot is
exactly the built notarized payments and the token-class slots are empty. -/
theorem build_requested_payments_parts
    (rp_xch : List (List Nat × List (List Nat × Nat)))
    (rp : RequestedPayments)
    (h : build_requested_payments rp_xch = Except.ok rp) :
    build_xch rp_xch = Except.ok rp.xch ∧ rp.cats = [] := by
  unfold build_requested_payments at h
  rcases except_ok_or_error (build_xch rp_xch) with ⟨v, hv⟩ | ⟨e, he⟩
  · rw [hv, except_ok_bind] at h
    simp only [Except.ok.injEq] at h
    rw [← h]
    exact ⟨hv, rfl⟩
  · rw [he, except_error_bind] at h
    exact absurd h (by simp)

/-- The requested-payments construction errors exactly when the notarized
payments construction errors, with the same error. -/
theorem build_requested_payments_error_iff
    (rp_xch : List (List Nat × List (List Nat × Nat))) (e : NativeError) :
    build_requested_payments rp_xch = Except.error e ↔
      build_xch rp_xch = Except.error e := by
  unfold build_requested_payments
  rcases except_ok_or_error (build_xch rp_xch) with ⟨v, hv⟩ | ⟨e2, he2⟩
  · rw [hv, except_ok_bind]
    simp [hv]
  · rw [he2, except_error_bind]
    constructor
    · intro hh
      rw [(Except.error.injEq _ _).mp hh]
    · intro hh
      rw [(Except.error.injEq _ _).mp hh]

/-- A first bad-length identifier makes the requested-payments construction
fail with the corresponding length error. -/
theorem build_requested_payments_bad (rp_xch : List (List Nat × List (List Nat × Nat)))
    (f : String) (h : first_bad_field rp_xch = Option.some f) :
    build_requested_payments rp_xch =
      Except.error (NativeError.lengthError f) :=
  (build_requested_payments_error_iff rp_xch _).mpr
    ((build_xch_error_iff rp_xch _).mpr ⟨f, h, rfl⟩)

/-- A successful notarized-payments construction preserves the entry count
and the nonces pointwise: no deduplication happens. -/
theorem build_xch_nonces (l : List (List Nat × List (List Nat × Nat)))
    (xch : List NotarizedPayment) (h : build_xch l = Except.ok xch) :
    xch.length = l.length ∧
      xch.map (fun np => np.nonce.val) = l.map Prod.fst := by
  have hrel := build_xch_matches l xch h
  clear h
  refine ⟨hrel.length_eq.symm, ?_⟩
  induction hrel with
  | nil => rfl
  | cons h1 h2 ih => simp [h1.1, ih]

/-! ## Claims -/

/-- Claim C2: for every well-formed spend bundle, decoding the bytes
produced by encoding it yields the same bundle: `decode` and `encode` are
exact inverses on well-formed bundles. -/
theorem spend_bundle_roundtrip (sb : SpendBundle) (h : sb.WellFormed) :
    SpendBundle.from_bytes (SpendBundle.to_bytes sb) = Except.ok sb := by
  have hd := decode_spend_bundle_encode sb h []
  rw [List.append_nil] at hd
  unfold SpendBundle.from_bytes
  rw [hd]

/-- Claim C2 witness: the round trip evaluated at a concrete well-formed
bundle. -/
theorem spend_bundle_roundtrip_witness :
    sample_bundle.WellFormed ∧
      SpendBundle.from_bytes (SpendBundle.to_bytes sample_bundle) =
        Except.ok sample_bundle :=
  ⟨by decide, spend_bundle_roundtrip sample_bundle (by decide)⟩

/-- Claim C1: `validate_offer` first decodes the offer, propagating the
decoding error on failure; on a decoded bundle it succeeds exactly when
the puzzle-hash check, the signature check and the settlement-consistency
check all hold, failing fast in that order with a structural error, a
crypto-verification error and a structural error respectively. -/
theorem validate_offer_order (offer : List Nat) :
    (∀ e, decode_offer offer = Except.error e →
        validate_offer offer = Except.error e) ∧
    (∀ sb, decode_offer offer = Except.ok sb →
      ((validate_offer offer = Except.ok () ↔
          (puzzle_hashes_ok sb ∧ signature_ok sb ∧ settlement_ok sb)) ∧
       (¬ puzzle_hashes_ok sb →
          ∃ m, validate_offer offer =
            Except.error (NativeError.structuralError m)) ∧
       (puzzle_hashes_ok sb → ¬ signature_ok sb →
          ∃ m, validate_offer offer =
            Except.error (NativeError.cryptoVerificationError m)) ∧
       (puzzle_hashes_ok sb → signature_ok sb → ¬ settlement_ok sb →
          ∃ m, validate_offer offer =
            Except.error (NativeError.structuralError m)))) := by
  constructor
  · intro e he
    unfold validate_offer
    rw [he, except_error_bind]
  · intro sb hsb
    have hv : validate_offer offer = Offer.from_spend_bundle sb := by
      unfold validate_offer
      rw [hsb, except_ok_bind]
    rw [hv]
    unfold Offer.from_spend_bundle
    by_cases h1 : puzzle_hashes_ok sb
    · by_cases h2 : signature_ok sb
      · by_cases h3 : settlement_ok sb
        · simp [h1, h2, h3]
        · simp [h1, h2, h3]
      · simp [h1, h2]
    · simp [h1]

/-- Claim C1 witness: a concrete valid offer — the encoding of a bundle
whose puzzle reveals hash correctly, whose signature is the required one
and which contains no settlement spend — validates successfully. -/
theorem validate_offer_order_witness :
    validate_offer (SpendBundle.to_bytes sample_bundle) = Except.ok () :=
  ((validate_offer_order (SpendBundle.to_bytes sample_bundle)).2
      sample_bundle (by decide)).1.mpr
    ⟨by decide, by decide, by decide⟩

/-- Claim C3 counterexample: with bundle bytes that fail to decode and a
one-byte nonce, the assembler reports the encoding error, not a length
error — so a bad-length identifier does not always produce a length
error. -/
theorem assembler_length_error_counterexample :
    from_input_spend_bundle_xch [] [([0], [])] =
        Except.error
          (NativeError.encodingError "failed to decode spend bundle") ∧
      from_input_spend_bundle_xch [] [([0], [])] ≠
        Except.error (NativeError.lengthError "nonce") ∧
      from_input_spend_bundle_xch [] [([0], [])] ≠
        Except.error (NativeError.lengthError "puzzle_hash") :=
  ⟨rfl, by decide, by decide⟩

/-- Claim C3 (amended): identifier parsing succeeds exactly when the buffer
length is 32 and otherwise returns a length error naming the field; and
when the bundle bytes decode successfully, any bad-length nonce or puzzle
hash makes the assembler return a length error. -/
theorem parse_identifier_length (raw : List Nat) (field : String)
    (bytes : List Nat) (rp : List (List Nat × List (List Nat × Nat)))
    (sb : SpendBundle) :
    ((∃ b, parse_bytes32 raw field = Except.ok b) ↔ raw.length = 32) ∧
    (raw.length ≠ 32 →
      parse_bytes32 raw field =
        Except.error (NativeError.lengthError field)) ∧
    (SpendBundle.from_bytes bytes = Except.ok sb →
      first_bad_field rp ≠ Option.none →
      ∃ f, from_input_spend_bundle_xch bytes rp =
        Except.error (NativeError.lengthError f)) := by
  refine ⟨?_, ?_, ?_⟩
  · constructor
    · rintro ⟨b, hb⟩
      by_contra hlen
      rw [parse_bytes32, dif_neg hlen] at hb
      exact absurd hb (by simp)
    · intro hlen
      exact ⟨⟨raw, hlen⟩, by rw [parse_bytes32, dif_pos hlen]⟩
  · intro hlen
    rw [parse_bytes32, dif_neg hlen]
  · intro hsb hbad
    rcases hfb : first_bad_field rp with _ | f
    · exact absurd hfb hbad
    · refine ⟨f, ?_⟩
      unfold from_input_spend_bundle_xch
      rw [hsb, except_ok_bind, build_requested_payments_bad rp f hfb,
        except_error_bind]

/-- Claim C3 witness: the amended statement evaluated at a one-byte nonce,
a decodable input bundle and the field name of the parser. -/
theorem parse_identifier_length_witness :
    parse_bytes32 [0] "nonce" =
        Except.error (NativeError.lengthError "nonce") ∧
      ∃ f, from_input_spend_bundle_xch (SpendBundle.to_bytes sample_bundle)
          [([0], [])] =
        Except.error (NativeError.lengthError f) :=
  ⟨(parse_identifier_length [0] "nonce" (SpendBundle.to_bytes sample_bundle)
      [([0], [])] sample_bundle).2.1 (by decide),
   (parse_identifier_length [0] "nonce" (SpendBundle.to_bytes sample_bundle)
      [([0], [])] sample_bundle).2.2 (by decide) (by decide)⟩

/-- Claim C4: the assembler is deterministic — two calls with identical
spend-bundle bytes and requested payments yield identical outputs (or
identical errors).  The embedding is a pure function of its arguments, as
the source computes from its inputs alone with no hidden state. -/
theorem assembler_deterministic (b1 b2 : List Nat)
    (rp1 rp2 : List (List Nat × List (List Nat × Nat)))
    (hb : b1 = b2) (hrp : rp1 = rp2) :
    from_input_spend_bundle_xch b1 rp1 = from_input_spend_bundle_xch b2 rp2 := by
  rw [hb, hrp]

/-- Claim C4 witness: determinism evaluated at concrete arguments. -/
theorem assembler_deterministic_witness :
    from_input_spend_bundle_xch (SpendBundle.to_bytes sample_bundle)
        sample_rp_xch =
      from_input_spend_bundle_xch (SpendBundle.to_bytes sample_bundle)
        sample_rp_xch :=
  assembler_deterministic (SpendBundle.to_bytes sample_bundle)
    (SpendBundle.to_bytes sample_bundle) sample_rp_xch sample_rp_xch rfl rfl

/-- Claim C5: every successful assembler call outputs the encoding of the
bundle whose coin spends are the input bundle's spends followed, in order,
by the newly built settlement spends, and whose signature is the
aggregation of the input signature with the settlement spends'
(identity) contribution. -/
theorem assembler_merge (bytes : List Nat)
    (rp_xch : List (List Nat × List (List Nat × Nat)))
    (sb : SpendBundle) (rp : RequestedPayments)
    (hsb : SpendBundle.from_bytes bytes = Except.ok sb)
    (hrp : build_requested_payments rp_xch = Except.ok rp) :
    from_input_spend_bundle_xch bytes rp_xch =
      Except.ok (SpendBundle.to_bytes
        ⟨sb.coin_spends ++ settlement_spends rp,
         aggregate_signatures sb.aggregated_signature identity_signature⟩) := by
  unfold from_input_spend_bundle_xch
  rw [hsb, except_ok_bind, hrp, except_ok_bind]
  rfl

/-- Claim C5 witness: the merge shape evaluated at a concrete bundle and a
concrete requested payment. -/
theorem assembler_merge_witness :
    from_input_spend_bundle_xch (SpendBundle.to_bytes sample_bundle)
        sample_rp_xch =
      Except.ok (SpendBundle.to_bytes
        ⟨sample_bundle.coin_spends ++ settlement_spends sample_rp,
         aggregate_signatures sample_bundle.aggregated_signature
           identity_signature⟩) :=
  assembler_merge (SpendBundle.to_bytes sample_bundle) sample_rp_xch
    sample_bundle sample_rp (by decide) (by decide)

/-- Claim C6: the notarized payments built from the caller's requested
payments all land in the native-asset slot of the requested-payments
structure, and every token-class slot is left empty. -/
theorem assembler_native_slot
    (rp_xch : List (List Nat × List (List Nat × Nat)))
    (rp : RequestedPayments)
    (h : build_requested_payments rp_xch = Except.ok rp) :
    build_xch rp_xch = Except.ok rp.xch ∧ rp.cats = [] :=
  build_requested_payments_parts rp_xch rp h

/-- Claim C6 witness: the slot placement evaluated at a concrete requested
payment. -/
theorem assembler_native_slot_witness :
    build_xch sample_rp_xch = Except.ok sample_rp.xch ∧
      sample_rp.cats = [] :=
  assembler_native_slot sample_rp_xch sample_rp (by decide)

/-- Claim C7: each `(puzzle_hash, amount)` entry becomes exactly one
payment with that puzzle hash and amount and no memo, and each
`(nonce, payments)` pair becomes exactly one notarized payment with that
nonce and those payments in caller order — pointwise, order-preserving. -/
theorem assembler_payment_construction
    (rp_xch : List (List Nat × List (List Nat × Nat)))
    (rp : RequestedPayments)
    (h : build_requested_payments rp_xch = Except.ok rp) :
    List.Forall₂ entry_matches rp_xch rp.xch :=
  build_xch_matches rp_xch rp.xch
    (build_requested_payments_parts rp_xch rp h).1

/-- Claim C7 witness: the pointwise construction evaluated at a concrete
requested payment. -/
theorem assembler_payment_construction_witness :
    List.Forall₂ entry_matches sample_rp_xch sample_rp.xch :=
  assembler_payment_construction sample_rp_xch sample_rp (by decide)

/-- Claim C8: entries with identical nonces are all preserved as separate
notarized payments — the construction keeps one notarized payment per
entry, with the nonces pointwise equal to the callers', so no
deduplication or uniqueness check happens. -/
theorem assembler_no_nonce_dedup
    (rp_xch : List (List Nat × List (List Nat × Nat)))
    (rp : RequestedPayments)
    (h : build_requested_payments rp_xch = Except.ok rp) :
    rp.xch.length = rp_xch.length ∧
      rp.xch.map (fun np => np.nonce.val) = rp_xch.map Prod.fst :=
  build_xch_nonces rp_xch rp.xch
    (build_requested_payments_parts rp_xch rp h).1

/-- Claim C8 witness: two entries with the same nonce both survive as
separate notarized payments. -/
theorem assembler_no_nonce_dedup_witness :
    dup_rp.xch.length = dup_rp_xch.length ∧
      dup_rp.xch.map (fun np => np.nonce.val) = dup_rp_xch.map Prod.fst :=
  assembler_no_nonce_dedup dup_rp_xch dup_rp (by decide)

/-- Claim C9: an empty requested-payments sequence succeeds and returns a
bundle with exactly the input bundle's coin spends and signature; in
particular the empty input bundle with empty requested payments yields a
bundle of zero coin spends and the identity signature. -/
theorem assembler_empty_requested (bytes : List Nat) (sb : SpendBundle)
    (h : SpendBundle.from_bytes bytes = Except.ok sb) :
    from_input_spend_bundle_xch bytes [] =
        Except.ok (SpendBundle.to_bytes sb) ∧
      from_input_spend_bundle_xch (SpendBundle.to_bytes empty_bundle) [] =
        Except.ok (SpendBundle.to_bytes empty_bundle) ∧
      empty_bundle.coin_spends = [] ∧
      empty_bundle.aggregated_signature = identity_signature := by
  have hsame : ∀ s : SpendBundle,
      offer_to_spend_bundle s RequestedPayments.new = s := by
    intro s
    unfold offer_to_spend_bundle settlement_spends xch_settlement_spends
      RequestedPayments.new aggregate_signatures identity_signature
    simp
  refine ⟨?_, ?_, rfl, rfl⟩
  · unfold from_input_spend_bundle_xch
    rw [h, except_ok_bind]
    have hrp : build_requested_payments [] =
        Except.ok RequestedPayments.new := rfl
    rw [hrp, except_ok_bind, hsame sb]
  · unfold from_input_spend_bundle_xch
    have hempty : SpendBundle.from_bytes
        (SpendBundle.to_bytes empty_bundle) = Except.ok empty_bundle := by
      decide
    rw [hempty, except_ok_bind]
    have hrp : build_requested_payments [] =
        Except.ok RequestedPayments.new := rfl
    rw [hrp, except_ok_bind, hsame empty_bundle]

/-- Claim C9 witness: the empty-requested-payments behavior evaluated at a
concrete decodable bundle. -/
theorem assembler_empty_requested_witness :
    from_input_spend_bundle_xch (SpendBundle.to_bytes sample_bundle) [] =
        Except.ok (SpendBundle.to_bytes sample_bundle) ∧
      from_input_spend_bundle_xch (SpendBundle.to_bytes empty_bundle) [] =
        Except.ok (SpendBundle.to_bytes empty_bundle) ∧
      empty_bundle.coin_spends = [] ∧
      empty_bundle.aggregated_signature = identity_signature :=
  assembler_empty_requested (SpendBundle.to_bytes sample_bundle)
    sample_bundle (by decide)

/-- Claim C10: the input bundle bytes are decoded before any
identifier-length validation — a decoding failure is returned unchanged
whatever the requested payments contain — and, once decoding succeeds, the
call fails with a length error exactly for the first bad-length identifier
in caller order, each entry's nonce checked before that entry's puzzle
hashes (the scan order of `first_bad_field`). -/
theorem assembler_error_order (bytes : List Nat)
    (rp : List (List Nat × List (List Nat × Nat))) :
    (∀ e, SpendBundle.from_bytes bytes = Except.error e →
        from_input_spend_bundle_xch bytes rp = Except.error e) ∧
    (∀ sb, SpendBundle.from_bytes bytes = Except.ok sb →
      ∀ e, (from_input_spend_bundle_xch bytes rp = Except.error e ↔
        ∃ f, first_bad_field rp = Option.some f ∧
          e = NativeError.lengthError f)) := by
  constructor
  · intro e he
    unfold from_input_spend_bundle_xch
    rw [he, except_error_bind]
  · intro sb hsb e
    unfold from_input_spend_bundle_xch
    rw [hsb, except_ok_bind]
    rcases except_ok_or_error (build_requested_payments rp) with
      ⟨v, hv⟩ | ⟨e2, he2⟩
    · rw [hv, except_ok_bind]
      constructor
      · intro hcontra
        exact absurd hcontra (by simp)
      · rintro ⟨f, hf, _⟩
        have hbad := build_requested_payments_bad rp f hf
        rw [hv] at hbad
        exact absurd hbad (by simp)
    · rw [he2, except_error_bind]
      obtain ⟨f, hf, he2f⟩ :=
        (build_xch_error_iff rp e2).mp
          ((build_requested_payments_error_iff rp e2).mp he2)
      constructor
      · intro hee
        exact ⟨f, hf, by
          rw [← (Except.error.injEq _ _).mp hee, he2f]⟩
      · rintro ⟨f2, hf2, hef2⟩
        rw [hf] at hf2
        rw [hef2, ← (Option.some.injEq _ _).mp hf2, ← he2f]

/-- Claim C10 witness: decoding-error precedence evaluated at undecodable
bytes together with a bad-length nonce. -/
theorem assembler_error_order_witness :
    from_input_spend_bundle_xch [0, 0, 0] [([0], [])] =
      Except.error
        (NativeError.encodingError "failed to decode spend bundle") :=
  (assembler_error_order [0, 0, 0] [([0], [])]).1
    (NativeError.encodingError "failed to decode spend bundle") rfl
